import Mathlib

/-!
Verification of `scripts/allure_enrich_steps.py`: a batch pipeline that reads
JUnit XML test reports, reconstructs per-test steps from Maestro flow YAML
files, correlates failures to steps, attaches screenshots, and emits one
Allure result record per test case.

The Python source is shallowly embedded below.  File contents are modelled as
`Option (List String)` (absent file / list of lines), directories as
`Option (List FileEntry)` (absent directory / recursive file listing in
traversal order), parsed floats as `ℚ`, Python `int` as `ℤ`, and the fallible
emission step (which can raise `IndexError`) as an `Option`-returning
function.  Regex uses are hand-compiled to character-list scanners with the
same matching semantics.
-/

namespace AllureEnrich

/-! ### Python string primitives -/

/-- Python's whitespace class (`\s` in `re`, and the default `str.strip`). -/
def isPySpace (c : Char) : Bool :=
  c = ' ' || c = '\t' || c = '\n' || c = '\r' || c = '\x0b' || c = '\x0c'

/-- Python's `\w` word-character class (ASCII part, which is all the inputs use). -/
def isWordChar (c : Char) : Bool :=
  c.isAlphanum || c = '_'

/-- Drop matching characters from both ends of a character list. -/
def stripEnds (p : Char → Bool) (cs : List Char) : List Char :=
  ((cs.dropWhile p).reverse.dropWhile p).reverse

/-- Python `str.strip()`. -/
def pyStrip (s : String) : String :=
  String.mk (stripEnds isPySpace s.data)

/-- Python `str.rstrip()`. -/
def pyRStrip (s : String) : String :=
  String.mk ((s.data.reverse.dropWhile isPySpace).reverse)

/-- Python `str.lstrip("#")`. -/
def pyLStripHashes (s : String) : String :=
  String.mk (s.data.dropWhile (· = '#'))

/-- Python `str.strip('"')`. -/
def pyStripQuotes (s : String) : String :=
  String.mk (stripEnds (· = '"') s.data)

/-- Python's `or` on strings: empty string is falsy. -/
def pyOr (a b : String) : String :=
  if a = "" then b else a

/-- Python `str.lower()` (ASCII case folding, which is all the inputs use). -/
def pyLower (s : String) : String :=
  String.mk (s.data.map Char.toLower)

/-- Boolean contiguous-sublist test (Python's `in` on strings). -/
def infixOf (a : List Char) : List Char → Bool
  | [] => a.isEmpty
  | c :: rest => a.isPrefixOf (c :: rest) || infixOf a rest

/-- Python `a in b` for strings (substring containment). -/
def pyIn (a b : String) : Bool :=
  infixOf a.data b.data

/-- Python `str.startswith((" ", "\t"))` used on raw flow lines. -/
def startsIndent (s : String) : Bool :=
  match s.data with
  | c :: _ => c = ' ' || c = '\t'
  | [] => false

/-- Python `str.startswith("#")`. -/
def startsHash (s : String) : Bool :=
  match s.data with
  | c :: _ => c = '#'
  | [] => false

/-- Python `int()` applied to a nonnegative-or-negative rational
(truncation toward zero, as Python's `int(float)`). -/
def pyInt (q : ℚ) : ℤ :=
  if 0 ≤ q then ⌊q⌋ else ⌈q⌉

/-! ### Regex scanners

Each scanner hand-compiles one regular expression from the source, with
`re.search` semantics: try every start position from the left, with
backtracking inside a position.  For the `\s*` before a quote/capture the
only relevant backtracking is trying shorter whitespace runs, which
`tryDrops` performs longest-first exactly as the greedy engine does. -/

/-- One match attempt of `["']?(<tokOk>+)` at the head of `cs`.
If a quote is consumed but the capture would be empty the engine backtracks
to not consuming the quote; the first character is then that quote, which is
outside both capture classes used in the source, so the attempt fails. -/
def capAt (tokOk : Char → Bool) (cs : List Char) : Option (List Char) :=
  match cs with
  | [] => none
  | c :: rest =>
    if c = '"' || c = '\'' then
      let cap := rest.takeWhile tokOk
      if cap = [] then none else some cap
    else
      let cap := (c :: rest).takeWhile tokOk
      if cap = [] then none else some cap

/-- Backtracking over the greedy `\s*`: try dropping `k` characters, longest
run first, down to zero. -/
def tryDrops (tokOk : Char → Bool) (cs : List Char) : Nat → Option (List Char)
  | 0 => capAt tokOk cs
  | Nat.succ k =>
    match capAt tokOk (cs.drop (Nat.succ k)) with
    | some r => some r
    | none => tryDrops tokOk cs k

/-- Match `\s*["']?(<tokOk>+)` at the head of `cs`. -/
def capWithSpaces (tokOk : Char → Bool) (cs : List Char) : Option (List Char) :=
  tryDrops tokOk cs (cs.takeWhile isPySpace).length

/-- `re.search` for `<lit>\s*["']?(<tokOk>+)`: scan start positions from the
left; at each occurrence of the literal try the tail of the pattern, else
advance one position. -/
def searchLit (lit : List Char) (tokOk : Char → Bool) : List Char → Option (List Char)
  | [] => none
  | c :: rest =>
    if lit.isPrefixOf (c :: rest) then
      match capWithSpaces tokOk ((c :: rest).drop lit.length) with
      | some r => some r
      | none => searchLit lit tokOk rest
    else searchLit lit tokOk rest

/-- Capture class `[^"'\s]` of the `id:` pattern. -/
def idTok (c : Char) : Bool :=
  !(c = '"' || c = '\'' || isPySpace c)

/-- Capture class `[^"'\n]` of the `text:` pattern. -/
def textTok (c : Char) : Bool :=
  !(c = '"' || c = '\'' || c = '\n')

/-- `re.search(r"id:\s*[\"']?([^\"'\s]+)", s)`, returning group 1. -/
def searchId (s : String) : Option String :=
  (searchLit "id:".data idTok s.data).map String.mk

/-- `re.search(r"text:\s*[\"']?([^\"'\n]+)", s)`, returning group 1. -/
def searchText (s : String) : Option String :=
  (searchLit "text:".data textTok s.data).map String.mk

/-- Python `str.replace(".yaml", "")` (all non-overlapping occurrences,
left to right). -/
def stripYamlExt : List Char → List Char
  | '.' :: 'y' :: 'a' :: 'm' :: 'l' :: rest => stripYamlExt rest
  | c :: rest => c :: stripYamlExt rest
  | [] => []

/-- `re.search(r"file:\s*\.\./subflows/(\S+)", s)`, returning group 1.
The `\s*` is greedy and never usefully backtracks because the following
literal starts with `.`, which is not whitespace. -/
def searchSubflow (s : String) : Option String :=
  go s.data
where
  go : List Char → Option String
    | [] => none
    | c :: rest =>
      if "file:".data.isPrefixOf (c :: rest) then
        let t := ((c :: rest).drop 5).dropWhile isPySpace
        if "../subflows/".data.isPrefixOf t then
          let cap := (t.drop 12).takeWhile (fun d => !(isPySpace d))
          if cap = [] then go rest else some (String.mk cap)
        else go rest
      else go rest

/-- `re.findall(r'"([^"]+)"', s)`: non-overlapping double-quoted substrings,
left to right, scanning resumes after each closing quote.  `state = none`
means "looking for an opening quote"; `state = some acc` means "inside a
candidate body with reversed accumulator `acc`". -/
def findQuotedGo : List Char → Option (List Char) → List String
  | [], _ => []
  | c :: rest, none =>
    if c = '"' then findQuotedGo rest (some []) else findQuotedGo rest none
  | c :: rest, some acc =>
    if c = '"' then
      if acc = [] then findQuotedGo rest (some [])
      else String.mk acc.reverse :: findQuotedGo rest none
    else findQuotedGo rest (some (c :: acc))

/-- All double-quoted substrings of `s`, as `re.findall(r'"([^"]+)"', s)`. -/
def findQuoted (s : String) : List String :=
  findQuotedGo s.data none

/-! ### Flow step extractor (`steps_from_flow_yaml`) -/

/-- `re.match(r"^\s*-\s+(\w+)\s*:\s*(.*)$", line)`: returns
(command name, inline value with leading whitespace removed).  The greedy
`\s+`/`\s*`/`\w+` runs never usefully backtrack because the classes involved
are pairwise disjoint. -/
def cmdMatch (s : String) : Option (String × String) :=
  match s.data.dropWhile isPySpace with
  | '-' :: r1 =>
    match r1 with
    | c :: _ =>
      if isPySpace c then
        let r2 := r1.dropWhile isPySpace
        let word := r2.takeWhile isWordChar
        if word = [] then none
        else
          match (r2.drop word.length).dropWhile isPySpace with
          | ':' :: tail => some (String.mk word, String.mk (tail.dropWhile isPySpace))
          | _ => none
      else none
    | [] => none
  | _ => none

/-- The `runFlow` lookahead: scan following lines while they start with a
space or tab, take the first subflow file reference, default `"subflow"`. -/
def runFlowSub : List String → String
  | [] => "subflow"
  | l :: ls =>
    if startsIndent l then
      match searchSubflow l with
      | some s => String.mk (stripYamlExt s.data)
      | none => runFlowSub ls
    else "subflow"

/-- The `assertVisible` multi-line lookahead over the next (up to 5) lines:
first line matching the `id:` pattern wins, else the first line containing
`"text:"` is used via the `text:` pattern. -/
def avLookahead : List String → String
  | [] => ""
  | l :: ls =>
    match searchId l with
    | some v => v
    | none =>
      if pyIn "text:" l then
        pyStripQuotes (pyStrip (((searchText l).getD "")))
      else avLookahead ls

/-- Build one step label for an `assertVisible` command with inline value
`restv` and remaining lines `rest` (for the lookahead). -/
def assertVisibleStep (restv : String) (rest : List String) : String :=
  let detail := if restv = "" then avLookahead (rest.take 5) else restv
  let detail :=
    if pyIn "id:" detail then
      match searchId detail with
      | some v => v
      | none => detail
    else if pyIn "text:" detail then
      match searchText detail with
      | some v => pyStrip v
      | none => detail
    else detail
  if detail = "" then "Assert visible" else "Assert visible: " ++ detail

/-- Build one step label for a `tapOn` command with inline value `restv`. -/
def tapOnStep (restv : String) : String :=
  let detail := restv
  let detail :=
    if pyIn "id:" detail then
      match searchId detail with
      | some v => v
      | none => detail
    else detail
  if detail = "" then "Tap" else "Tap: " ++ detail

/-- The main line loop of `steps_from_flow_yaml`: one pass over the lines
with an `in_steps` flag that becomes true at the `---` document separator.
Lookaheads (for `runFlow` and `assertVisible`) peek into the remaining lines
without consuming them, exactly as the Python index arithmetic does. -/
def flowLoop : List String → Bool → List String
  | [], _ => []
  | line :: rest, inSteps =>
    let ls := pyRStrip line
    let lss := pyStrip ls
    if lss = "---" then flowLoop rest true
    else if !inSteps then flowLoop rest inSteps
    else if startsHash lss && lss ≠ "#" then
      pyOr (pyStrip (pyLStripHashes lss)) "Comment" :: flowLoop rest inSteps
    else
      match cmdMatch ls with
      | none => flowLoop rest inSteps
      | some (cmd, rest0) =>
        let restv := pyStrip rest0
        let step :=
          if cmd = "runFlow" then "Run flow: " ++ runFlowSub rest
          else if cmd = "launchApp" then "Launch app (clear state)"
          else if cmd = "tapOn" then tapOnStep restv
          else if cmd = "assertVisible" then assertVisibleStep restv rest
          else if restv = "" then cmd else cmd ++ " (" ++ restv ++ ")"
        step :: flowLoop rest inSteps

/-- `steps_from_flow_yaml`: absent file yields no steps, else parse the
lines of the file. -/
def steps_from_flow_yaml (flow : Option (List String)) : List String :=
  match flow with
  | none => []
  | some lines => flowLoop lines false

/-! ### Data model

The parsed JUnit XML tree: a `failure`/`error` child element carries an
optional `message` attribute and optional body text; a `testcase` element
carries optional `name`/`id`/`status` attributes, a parsed `time` attribute
(`float(tc.get("time", 0))`, absent defaulting to `0`), and at most one
`failure` and one `error` child (the first of each tag, as `tc.find`). -/

structure XmlMarker where
  message : Option String
  text : Option String
deriving DecidableEq

structure XmlTestcase where
  nameAttr : Option String
  idAttr : Option String
  statusAttr : Option String
  timeAttr : ℚ
  failure : Option XmlMarker
  error : Option XmlMarker
deriving DecidableEq

/-- Allure `statusDetails`: `{"message": ..., "trace": ...}`. -/
structure FailureDetail where
  message : String
  trace : String
deriving DecidableEq

/-- One collected test case (the tuple appended to `cases`). -/
structure Case where
  reportName : String
  flowName : String
  name : String
  status : String
  time : ℚ
  details : Option FailureDetail
deriving DecidableEq

/-- An Allure attachment reference `{"name", "source", "type"}`. -/
structure Attachment where
  name : String
  source : String
  type : String
deriving DecidableEq

/-- One emitted step object; an absent `statusDetails` JSON key is `none`,
an absent `attachments` key is `[]`. -/
structure StepResult where
  name : String
  status : String
  start : ℤ
  stop : ℤ
  statusDetails : Option FailureDetail
  attachments : List Attachment
deriving DecidableEq

/-- One emitted `*-result.json` record. -/
structure Result where
  uuid : String
  historyId : String
  fullName : String
  name : String
  status : String
  start : ℤ
  stop : ℤ
  labels : List (String × String)
  steps : List StepResult
  statusDetails : Option FailureDetail
  attachments : List Attachment
deriving DecidableEq

/-! ### Report collector -/

/-- Extraction of `statusDetails` from the first `failure`/`error` child:
`msg or body or "Test failed"` and `body if body != msg else ""`. -/
def mkDetail (n : XmlMarker) : FailureDetail :=
  let msg := pyStrip (n.message.getD "")
  let body := pyStrip (n.text.getD "")
  { message := pyOr msg (pyOr body "Test failed"),
    trace := if body ≠ msg then body else "" }

/-- The `for tag in ("failure", "error")` loop: `failure` is looked up
first. -/
def extractDetails (tc : XmlTestcase) : Option FailureDetail :=
  match tc.failure with
  | some n => some (mkDetail n)
  | none => tc.error.map mkDetail

/-- Status derivation: `(tc.get("status") or "SUCCESS").lower()` then the
`success`/`failure`/`has_failure_node` branch chain. -/
def deriveStatus (tc : XmlTestcase) : String :=
  let hasFailureNode := (extractDetails tc).isSome
  let st := pyLower (pyOr (tc.statusAttr.getD "") "SUCCESS")
  if st = "success" then "passed"
  else if st = "failure" then "failed"
  else if hasFailureNode then "failed"
  else "passed"

/-- Build the collected tuple for one `testcase` element. -/
def mkCase (reportName flowName : String) (tc : XmlTestcase) : Case :=
  { reportName, flowName,
    name := pyOr (tc.nameAttr.getD "") (pyOr (tc.idAttr.getD "") "Unnamed"),
    status := deriveStatus tc,
    time := tc.timeAttr,
    details := extractDetails tc }

/-- Execution order of report files, as in the source. -/
def REPORT_TO_FLOW_ORDER : List (String × String) :=
  [("assets_report", "assets_test.yaml"),
   ("dashboard_report", "dashboard_test.yaml"),
   ("profile_report", "profile_test.yaml")]

/-- Maestro `--test-output-dir` per report. -/
def REPORT_TO_MAESTRO_DIR : List (String × String) :=
  [("dashboard_report", "maestro-dashboard"),
   ("assets_report", "maestro-assets"),
   ("profile_report", "maestro-profile")]

/-- Phase 1 of `junit_to_allure_results`: collect all test cases in
execution order.  `reports` maps a report name to its parsed XML tree when
the file exists: the list of test suites, each being its `testcase`
elements in document order. -/
def collectCases (reports : String → Option (List (List XmlTestcase))) : List Case :=
  REPORT_TO_FLOW_ORDER.flatMap fun p =>
    match reports p.1 with
    | none => []
    | some suites => suites.flatMap fun suite => suite.map (mkCase p.1 p.2)

/-! ### Screenshot locator / copier -/

/-- One file found under the Maestro output directory.  A directory listing
is modelled as the flat `rglob("*")` traversal, each entry carrying its
`Path.suffix`, `st_mtime` and `is_file()` results. -/
structure FileEntry where
  suffix : String
  mtime : ℚ
  isFile : Bool
deriving DecidableEq

def IMAGE_EXTENSIONS : List String :=
  [".png", ".jpg", ".jpeg", ".gif", ".bmp", ".tiff", ".webp"]

def IMAGE_MIME : List (String × String) :=
  [(".png", "image/png"), (".jpg", "image/jpeg"), (".jpeg", "image/jpeg"),
   (".gif", "image/gif"), (".bmp", "image/bmp"), (".tiff", "image/tiff"),
   (".webp", "image/webp")]

/-- `f.is_file() and f.suffix.lower() in IMAGE_EXTENSIONS`. -/
def isImageEntry (f : FileEntry) : Bool :=
  f.isFile && IMAGE_EXTENSIONS.contains (pyLower f.suffix)

/-- The scan loop of `find_latest_screenshot`: `latest`/`latest_mtime`
accumulators, strict `>` comparison, `latest_mtime` initialized to `0`. -/
def findLatestLoop : List FileEntry → Option FileEntry → ℚ → Option FileEntry
  | [], latest, _ => latest
  | f :: fs, latest, lm =>
    if isImageEntry f && decide (lm < f.mtime)
    then findLatestLoop fs (some f) f.mtime
    else findLatestLoop fs latest lm

/-- `find_latest_screenshot`: `none` when the directory does not exist. -/
def find_latest_screenshot (dir : Option (List FileEntry)) : Option FileEntry :=
  match dir with
  | none => none
  | some files => findLatestLoop files none 0

/-- `copy_screenshot_to_allure`: returns the copied file's name and MIME
type, or `none`. -/
def copy_screenshot_to_allure (dir : Option (List FileEntry)) (attachmentUuid : String) :
    Option (String × String) :=
  match find_latest_screenshot dir with
  | none => none
  | some src =>
    let ext := pyLower src.suffix
    let mime := (List.lookup ext IMAGE_MIME).getD "image/png"
    some (attachmentUuid ++ "-attachment" ++ ext, mime)

/-! ### Failure correlator -/

/-- The inner `for idx, step_name in enumerate(step_names)` scan with its
`for`/`else`: index of the first step whose text contains the candidate. -/
def firstStepWith : List String → String → Option Nat
  | [], _ => none
  | s :: ss, part =>
    if pyIn part s then some 0 else (firstStepWith ss part).map (· + 1)

/-- The outer candidate scan (`for part in re.findall(...)`), with the
`for`/`else`/`break` control flow: first candidate longer than 2 characters
that is contained in some step wins, otherwise keep the default. -/
def scanParts (stepNames : List String) (dflt : ℤ) : List String → ℤ
  | [] => dflt
  | p :: ps =>
    if 2 < p.length then
      match firstStepWith stepNames p with
      | some i => (i : ℤ)
      | none => scanParts stepNames dflt ps
    else scanParts stepNames dflt ps

/-- The correlated failure step index: default `len(step_names) - 1`,
refined by the quoted-substring scan when the test failed with details. -/
def failedStepIdx (stepNames : List String) (status : String) (details : Option FailureDetail) : ℤ :=
  match details with
  | some sd =>
    if status = "failed" then
      scanParts stepNames ((stepNames.length : ℤ) - 1)
        (findQuoted (sd.message ++ " " ++ sd.trace))
    else (stepNames.length : ℤ) - 1
  | none => (stepNames.length : ℤ) - 1

/-! ### Result emitter -/

/-- `int(time_sec * 1000)`: the case's duration in milliseconds. -/
def caseDurMs (c : Case) : ℤ :=
  pyInt (c.time * 1000)

/-- `int(time_sec * 1000 / max(len(step_names), 1))`. -/
def stepDurMs (c : Case) (n : Nat) : ℤ :=
  pyInt (c.time * 1000 / ((max n 1 : Nat) : ℚ))

/-- The step names of a case come from re-parsing its flow file. -/
def stepNamesOf (flows : String → Option (List String)) (c : Case) : List String :=
  steps_from_flow_yaml (flows c.flowName)

/-- The `for i, step_name in enumerate(step_names)` loop building the step
objects. -/
def buildSteps (stepNames : List String) (status : String) (fIdx : ℤ)
    (details : Option FailureDetail) (startMs d : ℤ) : List StepResult :=
  stepNames.enum.map fun p =>
    let sStart := startMs + (p.1 : ℤ) * d
    let sStop := sStart + d
    let st :=
      if status ≠ "failed" then "passed"
      else if (p.1 : ℤ) = fIdx then "failed"
      else if fIdx < (p.1 : ℤ) then "skipped"
      else "passed"
    { name := p.2, status := st, start := sStart, stop := sStop,
      statusDetails :=
        if status = "failed" ∧ (p.1 : ℤ) = fIdx ∧ details.isSome then details else none,
      attachments := [] }

/-- Python sequence index normalization: negative indices count from the
end of a sequence of length `n`. -/
def pyNormIdx (i : ℤ) (n : ℕ) : ℤ :=
  if i < 0 then i + (n : ℤ) else i

/-- Python list item assignment `l[i] = ...` (here: updating one element):
negative indices count from the end, an out-of-range index raises
`IndexError`, modelled as `none`. -/
def pySetIdx (l : List α) (i : ℤ) (f : α → α) : Option (List α) :=
  if 0 ≤ pyNormIdx i l.length ∧ pyNormIdx i l.length < (l.length : ℤ) then
    match l.get? (pyNormIdx i l.length).toNat with
    | some a => some (l.set (pyNormIdx i l.length).toNat (f a))
    | none => none
  else none

/-- The `result` dict as first assembled (before the screenshot block). -/
def baseResult (flows : String → Option (List String)) (uid : String) (cursor : ℤ)
    (c : Case) : Result :=
  let names := stepNamesOf flows c
  let fIdx := failedStepIdx names c.status c.details
  { uuid := uid,
    historyId := "Test Suite:" ++ c.name ++ "#" ++ c.name,
    fullName := "Test Suite:" ++ c.name,
    name := c.name,
    status := c.status,
    start := cursor,
    stop := cursor + caseDurMs c,
    labels := [("suite", "Test Suite"), ("testClass", c.name), ("package", c.name)],
    steps := buildSteps names c.status fIdx c.details cursor (stepDurMs c names.length),
    statusDetails := if c.status = "failed" ∧ c.details.isSome then c.details else none,
    attachments := [] }

/-- The attachment dict `{"name": "Screenshot (failure)", ...}`. -/
def screenshotAtt (sm : String × String) : Attachment :=
  { name := "Screenshot (failure)", source := sm.1, type := sm.2 }

/-- The screenshot block at the end of the per-case loop: on a failed case
from a report with a known Maestro directory, copy the latest screenshot,
reference it at top level, and — guarded by
`failed_step_index < len(step_objects)` — also on the failed step, where
Python's negative indexing can raise `IndexError` (`none`). -/
def attachPhase (mdirs : String → Option (List FileEntry)) (attUuid : String)
    (c : Case) (fIdx : ℤ) (res0 : Result) : Option Result :=
  if c.status = "failed" then
    match List.lookup c.reportName REPORT_TO_MAESTRO_DIR with
    | some dirName =>
      match copy_screenshot_to_allure (mdirs dirName) attUuid with
      | some sm =>
        if fIdx < (res0.steps.length : ℤ) then
          match pySetIdx res0.steps fIdx
              (fun s => { s with attachments := [screenshotAtt sm] }) with
          | some steps1 =>
            some { res0 with attachments := [screenshotAtt sm], steps := steps1 }
          | none => none
        else some { res0 with attachments := [screenshotAtt sm] }
      | none => some res0
    | none => some res0
  else some res0

/-- One iteration of the per-case emission loop.  `uuid.uuid4()` is
nondeterministic, so the two generated identifiers are inputs.  Returns the
emitted record and the advanced timeline cursor, or `none` on the
`IndexError` described in `attachPhase`. -/
def emitCase (flows : String → Option (List String)) (mdirs : String → Option (List FileEntry))
    (uid attUuid : String) (cursor : ℤ) (c : Case) : Option (Result × ℤ) :=
  (attachPhase mdirs attUuid c (failedStepIdx (stepNamesOf flows c) c.status c.details)
    (baseResult flows uid cursor c)).map fun r => (r, cursor + caseDurMs c)

/-- The whole emission loop: thread the timeline cursor, abort on error.
`uids k` supplies the two identifiers generated while processing the `k`-th
case. -/
def emitAll (flows : String → Option (List String)) (mdirs : String → Option (List FileEntry))
    (uids : Nat → String × String) : Nat → ℤ → List Case → Option (List Result)
  | _, _, [] => some []
  | k, cursor, c :: cs =>
    match emitCase flows mdirs (uids k).1 (uids k).2 cursor c with
    | none => none
    | some rc => (emitAll flows mdirs uids (k + 1) rc.2 cs).map fun rs => rc.1 :: rs

/-- `junit_to_allure_results`: collect, return silently when no cases were
found, otherwise derive the timeline base from the total duration and emit
every case.  The returned list is the set of written `*-result.json`
records (in order); `none` models an uncaught exception. -/
def junit_to_allure_results (reports : String → Option (List (List XmlTestcase)))
    (flows : String → Option (List String)) (mdirs : String → Option (List FileEntry))
    (uids : Nat → String × String) (nowMs : ℤ) : Option (List Result) :=
  let cases := collectCases reports
  if cases.isEmpty then some []
  else
    let totalSec := (cases.map Case.time).sum
    let baseStartMs := nowMs - pyInt (totalSec * 1000)
    emitAll flows mdirs uids 0 baseStartMs cases

/-- Agreement of two step objects on every field except `attachments`
(the screenshot block only ever rewrites `attachments`). -/
def SameModAtt (a b : StepResult) : Prop :=
  a.name = b.name ∧ a.status = b.status ∧ a.start = b.start ∧
  a.stop = b.stop ∧ a.statusDetails = b.statusDetails

/-- The index selected once a candidate has been chosen: the first matching
step's index, or the default. -/
def stepIdxOr (dflt : ℤ) : Option Nat → ℤ
  | some i => (i : ℤ)
  | none => dflt

/-- `correlatorSpec` is transcribed from the specification text, not from
the source (the refinement side of claim C5): "Default: last step index.
Refinement: extract every double-quoted substring from the concatenated
message+trace; for each candidate substring longer than 2 characters, scan
the step sequence in order for the first step whose text contains that
substring as a literal; if found, select that step's index and stop
scanning further candidates; if a given candidate matches nothing, try the
next candidate." -/
def correlatorSpec (steps : List String) (cands : List String) : ℤ :=
  match cands.find? (fun p => decide (2 < p.length) && steps.any (fun s => pyIn p s)) with
  | some p => stepIdxOr ((steps.length : ℤ) - 1) (firstStepWith steps p)
  | none => (steps.length : ℤ) - 1

/-! ### Concrete inputs used by the claim-level theorems -/

/-- A `testcase` element with a `failure` child but no `status` attribute —
the shape the source's own comment says Maestro can produce. -/
def tcC1 : XmlTestcase :=
  { nameAttr := some "t", idAttr := none, statusAttr := none, timeAttr := 0,
    failure := some { message := some "Assertion is false", text := some "trace" },
    error := none }

/-- A flow file with three commands (for the timestamp claims). -/
def flows3 : String → Option (List String) :=
  fun _ => some ["---", "- launchApp:", "- stepA:", "- stepB:"]

def mdirs3 : String → Option (List FileEntry) :=
  fun _ => none

/-- A passed one-second test case whose flow yields three steps. -/
def case3 : Case :=
  { reportName := "assets_report", flowName := "assets_test.yaml", name := "t",
    status := "passed", time := 1, details := none }

/-- The emitted record for `case3` (the emission succeeds, by computation). -/
def pairC3 : Result × ℤ :=
  (emitCase flows3 mdirs3 "u" "a" 0 case3).get (by rfl)

/-- The flow file of the round-trip scenario (claim C4), as written in the
specification: `launchApp:`, `- tapOn:` with an indented `id:` line, and
`- assertVisible:` with an indented `text:` line, under a `---` separator
(the commands as Maestro list items). -/
def flowC4 : List String :=
  ["---",
   "- launchApp:",
   "- tapOn:",
   "    id: \"login-button\"",
   "- assertVisible:",
   "    text: \"Welcome\""]

/-- A report function with a single passing zero-duration test case. -/
def reports6 : String → Option (List (List XmlTestcase)) :=
  fun rn =>
    if rn = "assets_report" then
      some [[{ nameAttr := some "t1", idAttr := none, statusAttr := some "SUCCESS",
               timeAttr := 0, failure := none, error := none }]]
    else none

def flows6 : String → Option (List String) :=
  fun _ => none

def mdirs6 : String → Option (List FileEntry) :=
  fun _ => none

def uids6 : Nat → String × String :=
  fun _ => ("uid6", "att6")

/-- The records emitted on the `reports6` input. -/
def rs6 : List Result :=
  (junit_to_allure_results reports6 flows6 mdirs6 uids6 0).getD []

/-- A missing flow file: the step extractor yields no steps. -/
def flows10 : String → Option (List String) :=
  fun _ => none

/-- A Maestro output directory holding one screenshot. -/
def mdirs10 : String → Option (List FileEntry) :=
  fun _ => some [{ suffix := ".png", mtime := 5, isFile := true }]

/-- A failed one-second test case with failure details. -/
def case10 : Case :=
  { reportName := "assets_report", flowName := "assets_test.yaml", name := "t",
    status := "failed", time := 1, details := some { message := "Test failed", trace := "" } }

/-- A failed two-step scenario used to witness the step-status policy. -/
def flows2 : String → Option (List String) :=
  fun _ => some ["---", "- launchApp:", "- tapOn: \"login-button\""]

def case2 : Case :=
  { reportName := "assets_report", flowName := "assets_test.yaml", name := "t",
    status := "failed", time := 0,
    details := some { message := "Assertion is false: \"login-button\" is visible", trace := "" } }

/-- The emitted record for `case2` (no screenshot directory, so the
emission succeeds). -/
def pairC2 : Result × ℤ :=
  (emitCase flows2 mdirs3 "u" "a" 0 case2).get (by rfl)

/-! ### Helper lemmas -/

theorem pyInt_of_nonneg {q : ℚ} (h : 0 ≤ q) : pyInt q = ⌊q⌋ := if_pos h

theorem pyInt_near (q : ℚ) : |((pyInt q : ℤ) : ℚ) - q| < 1 := by
  unfold pyInt
  split
  · have h1 := Int.floor_le q
    have h2 := Int.sub_one_lt_floor q
    rw [abs_sub_lt_iff]
    constructor <;> linarith
  · have h1 := Int.ceil_lt_add_one q
    have h2 := Int.le_ceil q
    rw [abs_sub_lt_iff]
    constructor <;> linarith

theorem floor_div_natCast (q : ℚ) (n : ℕ) (hn : 0 < n) :
    ⌊q / (n : ℚ)⌋ = ⌊q⌋ / (n : ℤ) := by
  have hnQ : (0 : ℚ) < (n : ℚ) := by exact_mod_cast hn
  have hnZ : (0 : ℤ) < (n : ℤ) := by exact_mod_cast hn
  rw [Int.floor_eq_iff]
  constructor
  · rw [le_div_iff₀ hnQ]
    have hz : (⌊q⌋ / (n : ℤ)) * (n : ℤ) ≤ ⌊q⌋ := Int.ediv_mul_le _ (by omega)
    calc ((⌊q⌋ / (n : ℤ) : ℤ) : ℚ) * (n : ℚ) = (((⌊q⌋ / (n : ℤ)) * (n : ℤ) : ℤ) : ℚ) := by
          push_cast
          ring
      _ ≤ ((⌊q⌋ : ℤ) : ℚ) := by exact_mod_cast hz
      _ ≤ q := Int.floor_le q
  · rw [div_lt_iff₀ hnQ]
    have hz : ⌊q⌋ < (⌊q⌋ / (n : ℤ) + 1) * (n : ℤ) := Int.lt_ediv_add_one_mul_self _ hnZ
    have hq : q < ((⌊q⌋ : ℤ) : ℚ) + 1 := Int.lt_floor_add_one q
    calc q < ((⌊q⌋ : ℤ) : ℚ) + 1 := hq
      _ ≤ (((⌊q⌋ / (n : ℤ) + 1) * (n : ℤ) : ℤ) : ℚ) := by exact_mod_cast hz
      _ = (((⌊q⌋ / (n : ℤ) : ℤ) : ℚ) + 1) * (n : ℚ) := by
          push_cast
          ring

/-- With at least one step and a nonnegative duration, the per-step duration
is the integer division of the case duration by the step count. -/
theorem stepDurMs_eq (c : Case) (n : ℕ) (hn : 0 < n) (ht : 0 ≤ c.time) :
    stepDurMs c n = caseDurMs c / (n : ℤ) := by
  have h1 : (0 : ℚ) ≤ c.time * 1000 := mul_nonneg ht (by norm_num)
  have h2 : (0 : ℚ) ≤ c.time * 1000 / ((max n 1 : ℕ) : ℚ) :=
    div_nonneg h1 (by positivity)
  unfold stepDurMs caseDurMs
  rw [pyInt_of_nonneg h2, pyInt_of_nonneg h1, Nat.max_eq_left hn,
    floor_div_natCast _ n hn]

theorem buildSteps_length (names : List String) (st : String) (f : ℤ)
    (det : Option FailureDetail) (start d : ℤ) :
    (buildSteps names st f det start d).length = names.length := by
  simp [buildSteps]

theorem buildSteps_getElem (names : List String) (st : String) (f : ℤ)
    (det : Option FailureDetail) (start d : ℤ) (i : ℕ)
    (h1 : i < (buildSteps names st f det start d).length) (h2 : i < names.length) :
    (buildSteps names st f det start d)[i] =
      { name := names[i],
        status :=
          if st ≠ "failed" then "passed"
          else if (i : ℤ) = f then "failed"
          else if f < (i : ℤ) then "skipped"
          else "passed",
        start := start + (i : ℤ) * d,
        stop := start + (i : ℤ) * d + d,
        statusDetails := if st = "failed" ∧ (i : ℤ) = f ∧ det.isSome then det else none,
        attachments := [] } := by
  unfold buildSteps
  rw [List.getElem_map, List.getElem_enum]

theorem pySetIdx_some_length {α : Type} {l l2 : List α} {i : ℤ} {f : α → α}
    (h : pySetIdx l i f = some l2) : l2.length = l.length := by
  unfold pySetIdx at h
  split at h
  · split at h
    · cases h
      simp
    · cases h
  · cases h

theorem pySetIdx_some_get {α : Type} {l l2 : List α} {i : ℤ} {f : α → α}
    (h : pySetIdx l i f = some l2) (k : ℕ) (hk : k < l2.length) (hk2 : k < l.length) :
    l2[k] = l[k] ∨ l2[k] = f l[k] := by
  unfold pySetIdx at h
  split at h
  · rename_i hj
    split at h
    · rename_i a hget
      cases h
      by_cases hki : k = (pyNormIdx i l.length).toNat
      · right
        subst hki
        rw [List.getElem_set_self]
        have ha : a = l.get ⟨(pyNormIdx i l.length).toNat, hk2⟩ := by
          rw [List.get?_eq_getElem?, List.getElem?_eq_getElem hk2] at hget
          exact (Option.some_inj.mp hget).symm
        rw [ha]
        rfl
      · left
        rw [List.getElem_set_ne (Ne.symm hki)]
    · cases h
  · cases h

theorem attachPhase_some {mdirs : String → Option (List FileEntry)} {attUuid : String}
    {c : Case} {fIdx : ℤ} {res0 r : Result}
    (h : attachPhase mdirs attUuid c fIdx res0 = some r) :
    r.status = res0.status ∧ r.start = res0.start ∧ r.stop = res0.stop ∧
    r.statusDetails = res0.statusDetails ∧
    r.steps.length = res0.steps.length ∧
    ∀ k (hk : k < r.steps.length) (hk2 : k < res0.steps.length),
      SameModAtt (r.steps[k]) (res0.steps[k]) := by
  have htriv : ∀ k (hk : k < res0.steps.length) (hk2 : k < res0.steps.length),
      SameModAtt (res0.steps[k]) (res0.steps[k]) := by
    intro k hk hk2
    exact ⟨rfl, rfl, rfl, rfl, rfl⟩
  unfold attachPhase at h
  split at h
  · split at h
    · split at h
      · split at h
        · split at h
          · rename_i steps1 hset
            cases h
            refine ⟨rfl, rfl, rfl, rfl, pySetIdx_some_length hset, ?_⟩
            intro k hk hk2
            rcases pySetIdx_some_get hset k (by simpa using hk) hk2 with heq | heq
            · show SameModAtt (steps1[k]) _
              rw [heq]
              exact ⟨rfl, rfl, rfl, rfl, rfl⟩
            · show SameModAtt (steps1[k]) _
              rw [heq]
              exact ⟨rfl, rfl, rfl, rfl, rfl⟩
          · cases h
        · cases h
          exact ⟨rfl, rfl, rfl, rfl, rfl, htriv⟩
      · cases h
        exact ⟨rfl, rfl, rfl, rfl, rfl, htriv⟩
    · cases h
      exact ⟨rfl, rfl, rfl, rfl, rfl, htriv⟩
  · cases h
    exact ⟨rfl, rfl, rfl, rfl, rfl, htriv⟩

theorem emitCase_some {flows : String → Option (List String)}
    {mdirs : String → Option (List FileEntry)} {uid att : String} {cursor : ℤ}
    {c : Case} {r : Result} {cur2 : ℤ}
    (h : emitCase flows mdirs uid att cursor c = some (r, cur2)) :
    cur2 = cursor + caseDurMs c ∧
    attachPhase mdirs att c (failedStepIdx (stepNamesOf flows c) c.status c.details)
      (baseResult flows uid cursor c) = some r := by
  unfold emitCase at h
  cases hap : attachPhase mdirs att c (failedStepIdx (stepNamesOf flows c) c.status c.details)
      (baseResult flows uid cursor c) with
  | none =>
    rw [hap] at h
    cases h
  | some r0 =>
    rw [hap] at h
    simp only [Option.map_some'] at h
    cases h
    exact ⟨rfl, rfl⟩

/-- Field-level description of a successfully emitted record. -/
theorem emitCase_fields {flows : String → Option (List String)}
    {mdirs : String → Option (List FileEntry)} {uid att : String} {cursor : ℤ}
    {c : Case} {r : Result} {cur2 : ℤ}
    (h : emitCase flows mdirs uid att cursor c = some (r, cur2)) :
    r.status = c.status ∧ r.start = cursor ∧ r.stop = cursor + caseDurMs c ∧
    cur2 = cursor + caseDurMs c ∧
    r.statusDetails = (if c.status = "failed" ∧ c.details.isSome then c.details else none) ∧
    r.steps.length = (stepNamesOf flows c).length ∧
    ∀ k (hk : k < r.steps.length)
      (hk2 : k < (buildSteps (stepNamesOf flows c) c.status
        (failedStepIdx (stepNamesOf flows c) c.status c.details) c.details cursor
        (stepDurMs c (stepNamesOf flows c).length)).length),
      SameModAtt (r.steps[k])
        ((buildSteps (stepNamesOf flows c) c.status
            (failedStepIdx (stepNamesOf flows c) c.status c.details) c.details cursor
            (stepDurMs c (stepNamesOf flows c).length))[k]) := by
  obtain ⟨hcur, hap⟩ := emitCase_some h
  obtain ⟨hst, hstart, hstop, hdet, hlen, hsame⟩ := attachPhase_some hap
  refine ⟨hst, hstart, hstop, hcur, hdet, ?_, ?_⟩
  · rw [hlen]
    exact buildSteps_length (stepNamesOf flows c) c.status
      (failedStepIdx (stepNamesOf flows c) c.status c.details) c.details cursor
      (stepDurMs c (stepNamesOf flows c).length)
  · intro k hk hk2
    exact hsame k hk hk2

theorem firstStepWith_lt {steps : List String} {p : String} {i : ℕ}
    (h : firstStepWith steps p = some i) : i < steps.length := by
  induction steps generalizing i with
  | nil => cases h
  | cons s ss ih =>
    unfold firstStepWith at h
    split at h
    · cases h
      simp
    · cases hf : firstStepWith ss p with
      | none =>
        rw [hf] at h
        cases h
      | some j =>
        rw [hf] at h
        simp only [Option.map_some'] at h
        cases h
        have := ih hf
        simp
        omega

theorem firstStepWith_isSome (steps : List String) (p : String) :
    (firstStepWith steps p).isSome = steps.any (fun s => pyIn p s) := by
  induction steps with
  | nil => rfl
  | cons s ss ih =>
    unfold firstStepWith
    split
    · rename_i hp
      simp [hp]
    · rename_i hp
      simp only [Bool.not_eq_true] at hp
      simp [hp, ← ih]

/-- The candidate scan equals a `find?` over the candidates followed by the
index lookup of the selected candidate. -/
theorem scanParts_eq_find (steps : List String) (dflt : ℤ) (cands : List String) :
    scanParts steps dflt cands =
      match cands.find? (fun p => decide (2 < p.length) && steps.any (fun s => pyIn p s)) with
      | some p => stepIdxOr dflt (firstStepWith steps p)
      | none => dflt := by
  induction cands with
  | nil => rfl
  | cons p ps ih =>
    by_cases hlen : 2 < p.length
    · cases hf : firstStepWith steps p with
      | some i =>
        have hany : steps.any (fun s => pyIn p s) = true := by
          rw [← firstStepWith_isSome, hf]
          rfl
        rw [List.find?_cons_of_pos _ (by simp [hlen, hany])]
        simp [scanParts, hlen, hf, stepIdxOr]
      | none =>
        have hany : steps.any (fun s => pyIn p s) = false := by
          rw [← firstStepWith_isSome, hf]
          rfl
        rw [List.find?_cons_of_neg _ (by simp [hany])]
        simpa [scanParts, hlen, hf] using ih
    · rw [List.find?_cons_of_neg _ (by simp [hlen])]
      simpa [scanParts, hlen] using ih

theorem scanParts_bounds (steps : List String) (dflt : ℤ) (cands : List String)
    (h0 : 0 ≤ dflt) (h1 : dflt < (steps.length : ℤ)) :
    0 ≤ scanParts steps dflt cands ∧ scanParts steps dflt cands < (steps.length : ℤ) := by
  induction cands with
  | nil => exact ⟨h0, h1⟩
  | cons p ps ih =>
    unfold scanParts
    split
    · cases hf : firstStepWith steps p with
      | some i =>
        constructor
        · show (0 : ℤ) ≤ (i : ℤ)
          exact Int.natCast_nonneg i
        · show (i : ℤ) < (steps.length : ℤ)
          exact_mod_cast firstStepWith_lt hf
      | none => exact ih
    · exact ih

/-- For a non-empty step list the correlated failure index is a valid
index. -/
theorem failedStepIdx_bounds (steps : List String) (status : String)
    (det : Option FailureDetail) (hne : steps ≠ []) :
    0 ≤ failedStepIdx steps status det ∧
    failedStepIdx steps status det < (steps.length : ℤ) := by
  have hlen : 0 < steps.length := List.length_pos.mpr hne
  have h0 : (0 : ℤ) ≤ (steps.length : ℤ) - 1 := by
    omega
  have h1 : (steps.length : ℤ) - 1 < (steps.length : ℤ) := by
    omega
  unfold failedStepIdx
  cases det with
  | none => exact ⟨h0, h1⟩
  | some sd =>
    by_cases hs : status = "failed"
    · simp only [hs, if_true]
      exact scanParts_bounds steps _ _ h0 h1
    · simp only [hs, if_false]
      exact ⟨h0, h1⟩

/-- Timeline structure of the emission loop: one record per case, back-to-
back windows starting at the cursor, and the total window length is the sum
of the per-case millisecond durations. -/
theorem emitAll_spec (flows : String → Option (List String))
    (mdirs : String → Option (List FileEntry)) (uids : Nat → String × String) :
    ∀ (cases : List Case) (k : Nat) (cursor : ℤ) (rs : List Result),
      emitAll flows mdirs uids k cursor cases = some rs →
      rs.length = cases.length ∧
      (rs.map fun r => r.stop - r.start).sum = (cases.map fun c => caseDurMs c).sum ∧
      List.Chain' (fun a b => b.start = a.stop) rs ∧
      (∀ r0 ∈ rs.head?, r0.start = cursor) := by
  intro cases
  induction cases with
  | nil =>
    intro k cursor rs h
    unfold emitAll at h
    cases h
    simp
  | cons c cs ih =>
    intro k cursor rs h
    unfold emitAll at h
    cases hc : emitCase flows mdirs (uids k).1 (uids k).2 cursor c with
    | none =>
      rw [hc] at h
      cases h
    | some rc =>
      rw [hc] at h
      replace h : Option.map (fun rs => rc.1 :: rs)
          (emitAll flows mdirs uids (k + 1) rc.2 cs) = some rs := h
      cases hrest : emitAll flows mdirs uids (k + 1) rc.2 cs with
      | none =>
        rw [hrest] at h
        cases h
      | some rs2 =>
        rw [hrest] at h
        simp only [Option.map_some'] at h
        cases h
        have hc2 : emitCase flows mdirs (uids k).1 (uids k).2 cursor c = some (rc.1, rc.2) := hc
        obtain ⟨-, hstart, hstop, hcur2, -, -, -⟩ := emitCase_fields hc2
        obtain ⟨ihlen, ihsum, ihchain, ihhead⟩ := ih (k + 1) rc.2 rs2 hrest
        refine ⟨?_, ?_, ?_, ?_⟩
        · simp [ihlen]
        · simp only [List.map_cons, List.sum_cons, ihsum, hstart, hstop]
          ring
        · rw [List.chain'_cons']
          refine ⟨?_, ihchain⟩
          intro y hy
          have := ihhead y hy
          rw [this, hstop, hcur2]
        · intro r0 hr0
          simp only [List.head?_cons, Option.mem_def, Option.some_inj] at hr0
          subst hr0
          exact hstart

/-- The per-case millisecond conversion rounds each duration by strictly
less than one, so the summed conversion differs from the scaled summed
durations by at most the number of cases. -/
theorem sum_caseDurMs_near :
    ∀ (cs : List Case),
      |(((cs.map fun c => caseDurMs c).sum : ℤ) : ℚ) - 1000 * (cs.map Case.time).sum| ≤
        (cs.length : ℚ) := by
  intro cs
  induction cs with
  | nil => simp
  | cons c cs ih =>
    have hnear : |((caseDurMs c : ℤ) : ℚ) - c.time * 1000| < 1 := pyInt_near _
    calc |(((((c :: cs).map fun c => caseDurMs c).sum : ℤ)) : ℚ) -
            1000 * ((c :: cs).map Case.time).sum|
        = |(((caseDurMs c : ℤ) : ℚ) - c.time * 1000) +
            ((((cs.map fun c => caseDurMs c).sum : ℤ) : ℚ) - 1000 * (cs.map Case.time).sum)| := by
          simp only [List.map_cons, List.sum_cons]
          push_cast
          ring_nf
      _ ≤ |((caseDurMs c : ℤ) : ℚ) - c.time * 1000| +
            |(((cs.map fun c => caseDurMs c).sum : ℤ) : ℚ) - 1000 * (cs.map Case.time).sum| :=
          abs_add _ _
      _ ≤ 1 + (cs.length : ℚ) := add_le_add hnear.le ih
      _ = ((c :: cs).length : ℚ) := by
          simp only [List.length_cons]
          push_cast
          ring

/-- Strict form for a non-empty case list. -/
theorem sum_caseDurMs_near_lt (c : Case) (cs : List Case) :
    |((((c :: cs).map fun c => caseDurMs c).sum : ℤ) : ℚ) -
        1000 * ((c :: cs).map Case.time).sum| < ((c :: cs).length : ℚ) := by
  have hnear : |((caseDurMs c : ℤ) : ℚ) - c.time * 1000| < 1 := pyInt_near _
  calc |((((c :: cs).map fun c => caseDurMs c).sum : ℤ) : ℚ) -
          1000 * ((c :: cs).map Case.time).sum|
      = |(((caseDurMs c : ℤ) : ℚ) - c.time * 1000) +
          ((((cs.map fun c => caseDurMs c).sum : ℤ) : ℚ) - 1000 * (cs.map Case.time).sum)| := by
        simp only [List.map_cons, List.sum_cons]
        push_cast
        ring_nf
    _ ≤ |((caseDurMs c : ℤ) : ℚ) - c.time * 1000| +
          |(((cs.map fun c => caseDurMs c).sum : ℤ) : ℚ) - 1000 * (cs.map Case.time).sum| :=
        abs_add _ _
    _ < 1 + (cs.length : ℚ) := by
        have := sum_caseDurMs_near cs
        linarith
    _ = ((c :: cs).length : ℚ) := by
        simp only [List.length_cons]
        push_cast
        ring

/-- Invariant-carrying description of the screenshot scan loop.  The
accumulator hypotheses say: an empty accumulator means the tracked best
mtime is still the initial `0`, and a non-empty accumulator is an image
entry with positive mtime equal to the tracked best. -/
theorem findLatestLoop_spec :
    ∀ (files : List FileEntry) (acc : Option FileEntry) (lm : ℚ),
      (acc = none → lm = 0) →
      (∀ a, acc = some a → isImageEntry a = true ∧ lm = a.mtime ∧ 0 < lm) →
      (findLatestLoop files acc lm = none →
        acc = none ∧ ∀ f ∈ files, isImageEntry f = true → f.mtime ≤ 0) ∧
      (∀ g, findLatestLoop files acc lm = some g →
        isImageEntry g = true ∧ 0 < g.mtime ∧ (g ∈ files ∨ acc = some g) ∧ lm ≤ g.mtime ∧
        ∀ f ∈ files, isImageEntry f = true → f.mtime ≤ g.mtime) := by
  intro files
  induction files with
  | nil =>
    intro acc lm hnone hsome
    constructor
    · intro h
      exact ⟨h, by simp⟩
    · intro g h
      obtain ⟨himg, hlm, hpos⟩ := hsome g h
      exact ⟨himg, by rw [hlm] at hpos; exact hpos, Or.inr h, le_of_eq hlm, by simp⟩
  | cons f fs ih =>
    intro acc lm hnone hsome
    unfold findLatestLoop
    by_cases hcond : (isImageEntry f && decide (lm < f.mtime)) = true
    · simp only [hcond, if_true]
      simp only [Bool.and_eq_true, decide_eq_true_eq] at hcond
      obtain ⟨himg, hlt⟩ := hcond
      have hlm0 : 0 ≤ lm := by
        rcases hacc : acc with - | a
        · rw [hnone hacc]
        · obtain ⟨-, -, hpos⟩ := hsome a hacc
          exact le_of_lt hpos
      have hpos : 0 < f.mtime := lt_of_le_of_lt hlm0 hlt
      have := ih (some f) f.mtime (by intro h; cases h)
        (by
          intro a ha
          cases ha
          exact ⟨himg, rfl, hpos⟩)
      obtain ⟨hn, hs⟩ := this
      constructor
      · intro h
        obtain ⟨habs, -⟩ := hn h
        cases habs
      · intro g h
        obtain ⟨himg2, hpos2, hmem, hle, hmax⟩ := hs g h
        refine ⟨himg2, hpos2, ?_, ?_, ?_⟩
        · rcases hmem with hm | hm
          · exact Or.inl (List.mem_cons_of_mem _ hm)
          · cases hm
            exact Or.inl (List.mem_cons_self _ _)
        · exact le_of_lt (lt_of_lt_of_le hlt hle)
        · intro f2 hf2 himgf2
          rcases List.mem_cons.mp hf2 with hf2 | hf2
          · rw [hf2]
            exact hle
          · exact hmax f2 hf2 himgf2
    · simp only [hcond, if_false]
      have := ih acc lm hnone hsome
      obtain ⟨hn, hs⟩ := this
      have hfnot : isImageEntry f = true → f.mtime ≤ lm := by
        intro himg
        by_contra hgt
        push_neg at hgt
        apply hcond
        simp [himg, hgt]
      constructor
      · intro h
        obtain ⟨hacc, hall⟩ := hn h
        refine ⟨hacc, ?_⟩
        intro f2 hf2 himgf2
        rcases List.mem_cons.mp hf2 with hf2 | hf2
        · subst hf2
          have hle0 := hfnot himgf2
          rw [hnone hacc] at hle0
          exact hle0
        · exact hall f2 hf2 himgf2
      · intro g h
        obtain ⟨himg2, hpos2, hmem, hle, hmax⟩ := hs g h
        refine ⟨himg2, hpos2, ?_, hle, ?_⟩
        · rcases hmem with hm | hm
          · exact Or.inl (List.mem_cons_of_mem _ hm)
          · exact Or.inr hm
        · intro f2 hf2 himgf2
          rcases List.mem_cons.mp hf2 with hf2 | hf2
          · subst hf2
            exact le_trans (hfnot himgf2) hle
          · exact hmax f2 hf2 himgf2

/-! ### Claim-level theorems -/

/-- C1: the claim states that a failure/error child marker forces status
`failed` regardless of the status attribute (in particular also when the
attribute is absent).  Evaluating the embedded status derivation on a
testcase that has a `failure` child but no `status` attribute yields
`"passed"`: the absent attribute defaults to `"SUCCESS"` and the success
branch precedes the `has_failure_node` check, contradicting the claim (and
the source's own comment that a bare `<failure>` child marks a failure). -/
theorem c1_marker_ignored_when_attr_absent :
    (extractDetails tcC1).isSome = true ∧ deriveStatus tcC1 = "passed" :=
  ⟨rfl, by decide⟩

/-- C4 (counterexample): on the claim's flow file the extractor does not
produce `"Tap: login-button"`: the `tapOn` handler only reads the inline
value and never looks at the following indented `id:` line, so the tap step
is the bare `"Tap"`. -/
theorem c4_counterexample :
    steps_from_flow_yaml (some flowC4) =
      ["Launch app (clear state)", "Tap", "Assert visible: Welcome"] ∧
    steps_from_flow_yaml (some flowC4) ≠
      ["Launch app (clear state)", "Tap: login-button", "Assert visible: Welcome"] :=
  ⟨rfl, by decide⟩

/-- C4 (amended): the flow file of the round-trip scenario yields exactly
`["Launch app (clear state)", "Tap", "Assert visible: Welcome"]` — the
`launchApp` and `assertVisible` steps as claimed, but the tap step without
the identifier detail, because the extractor consults only inline values
for `tapOn`. -/
theorem c4_flow_roundtrip :
    steps_from_flow_yaml (some flowC4) =
      ["Launch app (clear state)", "Tap", "Assert visible: Welcome"] :=
  rfl

/-- C5: for a failed test case with failure detail and a non-empty step
sequence, the source's correlated failure index equals the specification's
description (`correlatorSpec`, transcribed from the spec text): default
last index; first quoted candidate longer than 2 characters contained in
some step selects the first such step's index and stops the scan;
non-matching candidates are skipped; no match keeps the last index. -/
theorem c5_failure_correlation (stepNames : List String) (sd : FailureDetail)
    (hne : stepNames ≠ []) :
    failedStepIdx stepNames "failed" (some sd) =
      correlatorSpec stepNames (findQuoted (sd.message ++ " " ++ sd.trace)) := by
  show scanParts stepNames ((stepNames.length : ℤ) - 1)
      (findQuoted (sd.message ++ " " ++ sd.trace)) = _
  rw [scanParts_eq_find]
  rfl

theorem c5_witness :
    (["Launch app (clear state)", "Tap: login-button"] : List String) ≠ [] ∧
    failedStepIdx ["Launch app (clear state)", "Tap: login-button"] "failed"
        (some { message := "Assertion is false: \"login-button\" is visible", trace := "" }) =
      correlatorSpec ["Launch app (clear state)", "Tap: login-button"]
        (findQuoted ("Assertion is false: \"login-button\" is visible" ++ " " ++ "")) :=
  ⟨by decide, c5_failure_correlation ["Launch app (clear state)", "Tap: login-button"]
    { message := "Assertion is false: \"login-button\" is visible", trace := "" } (by decide)⟩

/-- C7 (counterexample): for a marker with an empty (absent) `message`
attribute and non-empty body, the extracted detail has `trace` equal to the
displayed `message` and non-empty — the claim's "trace is empty when the
body equals the message, so message and trace are never displayed as
duplicates" is false: the code compares the body against the *attribute*,
not against the derived message. -/
theorem c7_counterexample :
    (mkDetail { message := none, text := some "boom!" }).trace =
      (mkDetail { message := none, text := some "boom!" }).message ∧
    (mkDetail { message := none, text := some "boom!" }).trace ≠ "" :=
  ⟨rfl, by decide⟩

/-- C7 (amended): the extracted message is the stripped `message` attribute
if non-empty, else the stripped body if non-empty, else `"Test failed"`;
the trace is the stripped body whenever it differs from the stripped
`message` attribute (not from the derived message), and empty otherwise.
Message and trace therefore coincide exactly when the attribute is empty
and the body is non-empty. -/
theorem c7_failure_detail (m : XmlMarker) :
    (mkDetail m).message =
      (if pyStrip (m.message.getD "") ≠ "" then pyStrip (m.message.getD "")
       else if pyStrip (m.text.getD "") ≠ "" then pyStrip (m.text.getD "")
       else "Test failed") ∧
    (mkDetail m).trace =
      (if pyStrip (m.text.getD "") ≠ pyStrip (m.message.getD "")
       then pyStrip (m.text.getD "") else "") := by
  unfold mkDetail pyOr
  constructor
  · by_cases h1 : pyStrip (m.message.getD "") = "" <;>
      by_cases h2 : pyStrip (m.text.getD "") = "" <;>
        simp [h1, h2]
  · rfl

/-- C8: when parsing all present report files yields zero test cases (in
particular when no report file exists), the pipeline emits no result
records — and hence also copies no attachments, since attachments are only
produced while emitting a record — and returns normally. -/
theorem c8_empty_input (reports : String → Option (List (List XmlTestcase)))
    (flows : String → Option (List String)) (mdirs : String → Option (List FileEntry))
    (uids : Nat → String × String) (nowMs : ℤ)
    (h : collectCases reports = []) :
    junit_to_allure_results reports flows mdirs uids nowMs = some [] := by
  unfold junit_to_allure_results
  simp [h]

theorem c8_witness :
    collectCases (fun _ => none) = [] ∧
    junit_to_allure_results (fun _ => none) (fun _ => none) (fun _ => none)
        (fun _ => ("u", "a")) 0 = some [] :=
  ⟨rfl, c8_empty_input (fun _ => none) (fun _ => none) (fun _ => none)
    (fun _ => ("u", "a")) 0 rfl⟩

/-- C10: the claim asserts that the `failed_step_index < len(step_objects)`
guard prevents any out-of-range step access for a failed test with an
empty step sequence, so the run cannot error.  Evaluating the embedded
emitter on a failed case whose flow file is missing (zero steps) and whose
Maestro directory holds a screenshot shows the opposite: the default index
is `-1`, the guard `-1 < 0` passes, and the Python assignment
`step_objects[-1][...]` on an empty list raises `IndexError` — the
emission aborts (`none`). -/
theorem c10_empty_steps_crash :
    steps_from_flow_yaml (flows10 case10.flowName) = [] ∧
    failedStepIdx (stepNamesOf flows10 case10) case10.status case10.details = -1 ∧
    emitCase flows10 mdirs10 "u" "a" 0 case10 = none :=
  ⟨rfl, rfl, rfl⟩

/-- C2: per-step status policy of an emitted test case with at least one
step.  If the record's status is `passed`, every step is `passed` and
carries no failure detail; if it is `failed` with failure detail present,
the correlated failure index `f` is a valid index and steps before `f` are
`passed` (no detail), step `f` is `failed` and carries the failure detail,
and steps after `f` are `skipped` (no detail). -/
theorem c2_step_status_policy (flows : String → Option (List String))
    (mdirs : String → Option (List FileEntry)) (uid att : String) (cursor : ℤ)
    (c : Case) (r : Result) (cur2 : ℤ)
    (hemit : emitCase flows mdirs uid att cursor c = some (r, cur2))
    (hK : 1 ≤ r.steps.length) :
    (r.status = "passed" → ∀ s ∈ r.steps, s.status = "passed" ∧ s.statusDetails = none) ∧
    (r.status = "failed" → ∀ sd, c.details = some sd →
      0 ≤ failedStepIdx (stepNamesOf flows c) c.status c.details ∧
      failedStepIdx (stepNamesOf flows c) c.status c.details < (r.steps.length : ℤ) ∧
      ∀ i (hi : i < r.steps.length),
        ((i : ℤ) < failedStepIdx (stepNamesOf flows c) c.status c.details →
          (r.steps[i]).status = "passed" ∧ (r.steps[i]).statusDetails = none) ∧
        ((i : ℤ) = failedStepIdx (stepNamesOf flows c) c.status c.details →
          (r.steps[i]).status = "failed" ∧ (r.steps[i]).statusDetails = some sd) ∧
        (failedStepIdx (stepNamesOf flows c) c.status c.details < (i : ℤ) →
          (r.steps[i]).status = "skipped" ∧ (r.steps[i]).statusDetails = none)) := by
  obtain ⟨hst, -, -, -, -, hlen, hsame⟩ := emitCase_fields hemit
  have hbl : (buildSteps (stepNamesOf flows c) c.status
      (failedStepIdx (stepNamesOf flows c) c.status c.details) c.details cursor
      (stepDurMs c (stepNamesOf flows c).length)).length = (stepNamesOf flows c).length :=
    buildSteps_length _ _ _ _ _ _
  constructor
  · intro hpass s hs
    have hcs : c.status = "passed" := by
      rw [← hst]
      exact hpass
    obtain ⟨⟨i, hi⟩, rfl⟩ := List.mem_iff_get.mp hs
    have h2 : i < (stepNamesOf flows c).length := hlen ▸ hi
    have hk2 : i < (buildSteps (stepNamesOf flows c) c.status
        (failedStepIdx (stepNamesOf flows c) c.status c.details) c.details cursor
        (stepDurMs c (stepNamesOf flows c).length)).length := by
      rw [hbl]
      exact h2
    obtain ⟨-, hstat, -, -, hsd⟩ := hsame i hi hk2
    have hrec := buildSteps_getElem (stepNamesOf flows c) c.status
      (failedStepIdx (stepNamesOf flows c) c.status c.details) c.details cursor
      (stepDurMs c (stepNamesOf flows c).length) i hk2 h2
    constructor
    · rw [List.get_eq_getElem, hstat, hrec]
      simp [hcs]
    · rw [List.get_eq_getElem, hsd, hrec]
      simp [hcs]
  · intro hfail sd hsd0
    have hcs : c.status = "failed" := by
      rw [← hst]
      exact hfail
    have hne : stepNamesOf flows c ≠ [] := by
      have : 0 < (stepNamesOf flows c).length := by
        rw [← hlen]
        omega
      exact List.ne_nil_of_length_pos this
    obtain ⟨hb0, hb1⟩ := failedStepIdx_bounds (stepNamesOf flows c) c.status c.details hne
    have hlenZ : ((stepNamesOf flows c).length : ℤ) = (r.steps.length : ℤ) := by
      exact_mod_cast hlen.symm
    refine ⟨hb0, by rw [← hlenZ]; exact hb1, ?_⟩
    intro i hi
    have h2 : i < (stepNamesOf flows c).length := hlen ▸ hi
    have hk2 : i < (buildSteps (stepNamesOf flows c) c.status
        (failedStepIdx (stepNamesOf flows c) c.status c.details) c.details cursor
        (stepDurMs c (stepNamesOf flows c).length)).length := by
      rw [hbl]
      exact h2
    obtain ⟨-, hstat, -, -, hsd⟩ := hsame i hi hk2
    have hrec := buildSteps_getElem (stepNamesOf flows c) c.status
      (failedStepIdx (stepNamesOf flows c) c.status c.details) c.details cursor
      (stepDurMs c (stepNamesOf flows c).length) i hk2 h2
    refine ⟨?_, ?_, ?_⟩
    · intro hlt
      have hne1 : ¬((i : ℤ) = failedStepIdx (stepNamesOf flows c) c.status c.details) := by
        omega
      have hne2 : ¬(failedStepIdx (stepNamesOf flows c) c.status c.details < (i : ℤ)) := by
        omega
      constructor
      · rw [hstat, hrec]
        show (if c.status ≠ "failed" then "passed"
          else if (i : ℤ) = failedStepIdx (stepNamesOf flows c) c.status c.details then "failed"
          else if failedStepIdx (stepNamesOf flows c) c.status c.details < (i : ℤ)
            then "skipped" else "passed") = "passed"
        rw [if_neg (by simp [hcs]), if_neg hne1, if_neg hne2]
      · rw [hsd, hrec]
        show (if c.status = "failed" ∧
            (i : ℤ) = failedStepIdx (stepNamesOf flows c) c.status c.details ∧
            c.details.isSome = true then c.details else none) = none
        rw [if_neg (by simp [hne1])]
    · intro heq
      constructor
      · rw [hstat, hrec]
        show (if c.status ≠ "failed" then "passed"
          else if (i : ℤ) = failedStepIdx (stepNamesOf flows c) c.status c.details then "failed"
          else if failedStepIdx (stepNamesOf flows c) c.status c.details < (i : ℤ)
            then "skipped" else "passed") = "failed"
        rw [if_neg (by simp [hcs]), if_pos heq]
      · rw [hsd, hrec]
        show (if c.status = "failed" ∧
            (i : ℤ) = failedStepIdx (stepNamesOf flows c) c.status c.details ∧
            c.details.isSome = true then c.details else none) = some sd
        rw [if_pos ⟨hcs, heq, by simp [hsd0]⟩]
        exact hsd0
    · intro hgt
      have hne1 : ¬((i : ℤ) = failedStepIdx (stepNamesOf flows c) c.status c.details) := by
        omega
      constructor
      · rw [hstat, hrec]
        show (if c.status ≠ "failed" then "passed"
          else if (i : ℤ) = failedStepIdx (stepNamesOf flows c) c.status c.details then "failed"
          else if failedStepIdx (stepNamesOf flows c) c.status c.details < (i : ℤ)
            then "skipped" else "passed") = "skipped"
        rw [if_neg (by simp [hcs]), if_neg hne1, if_pos hgt]
      · rw [hsd, hrec]
        show (if c.status = "failed" ∧
            (i : ℤ) = failedStepIdx (stepNamesOf flows c) c.status c.details ∧
            c.details.isSome = true then c.details else none) = none
        rw [if_neg (by simp [hne1])]

theorem c2_witness :
    (emitCase flows2 mdirs3 "u" "a" 0 case2 = some (pairC2.1, pairC2.2)) ∧
    1 ≤ pairC2.1.steps.length ∧
    ((pairC2.1.status = "passed" →
        ∀ s ∈ pairC2.1.steps, s.status = "passed" ∧ s.statusDetails = none) ∧
     (pairC2.1.status = "failed" → ∀ sd, case2.details = some sd →
        0 ≤ failedStepIdx (stepNamesOf flows2 case2) case2.status case2.details ∧
        failedStepIdx (stepNamesOf flows2 case2) case2.status case2.details <
          (pairC2.1.steps.length : ℤ) ∧
        ∀ i (hi : i < pairC2.1.steps.length),
          ((i : ℤ) < failedStepIdx (stepNamesOf flows2 case2) case2.status case2.details →
            (pairC2.1.steps[i]).status = "passed" ∧ (pairC2.1.steps[i]).statusDetails = none) ∧
          ((i : ℤ) = failedStepIdx (stepNamesOf flows2 case2) case2.status case2.details →
            (pairC2.1.steps[i]).status = "failed" ∧ (pairC2.1.steps[i]).statusDetails = some sd) ∧
          (failedStepIdx (stepNamesOf flows2 case2) case2.status case2.details < (i : ℤ) →
            (pairC2.1.steps[i]).status = "skipped" ∧
              (pairC2.1.steps[i]).statusDetails = none))) :=
  ⟨rfl, by decide,
    c2_step_status_policy flows2 mdirs3 "u" "a" 0 case2 pairC2.1 pairC2.2 rfl (by decide)⟩

/-- C3 (counterexample): on a passed one-second test case with three steps,
the emitted step windows end at 333, 666 and 999 ms after the test start,
while the test's own window ends at 1000 ms: all intervals share the
truncated length `int(1000 / 3) = 333`, so the last step's stop does *not*
equal the test's stop — the rounding remainder is not absorbed. -/
theorem c3_counterexample :
    emitCase flows3 mdirs3 "u" "a" 0 case3 =
      some (baseResult flows3 "u" 0 case3, 0 + caseDurMs case3) ∧
    (baseResult flows3 "u" 0 case3).stop = 1000 ∧
    ((baseResult flows3 "u" 0 case3).steps.map StepResult.stop) = [333, 666, 999] ∧
    ¬((999 : ℤ) = 1000) := by
  have hT : caseDurMs case3 = 1000 := by
    show pyInt ((1 : ℚ) * 1000) = 1000
    rw [pyInt_of_nonneg (by norm_num),
      show ((1 : ℚ) * 1000) = ((1000 : ℤ) : ℚ) by norm_num, Int.floor_intCast]
  have hd : stepDurMs case3 3 = 333 := by
    show pyInt ((1 : ℚ) * 1000 / ((3 : ℕ) : ℚ)) = 333
    rw [pyInt_of_nonneg (by positivity),
      show ((1 : ℚ) * 1000 / ((3 : ℕ) : ℚ)) = (((1000 : ℕ) : ℚ) / ((3 : ℕ) : ℚ)) by norm_num,
      Rat.floor_natCast_div_natCast]
    decide
  have hsteps : (baseResult flows3 "u" 0 case3).steps =
      buildSteps ["Launch app (clear state)", "stepA", "stepB"] "passed" 2 none 0 333 := by
    rw [← hd]
    rfl
  refine ⟨rfl, ?_, ?_, by decide⟩
  · show 0 + caseDurMs case3 = 1000
    rw [hT]
    decide
  · rw [hsteps]
    decide

/-- C3 (amended): for an emitted test case with `K ≥ 1` steps and
nonnegative declared duration, the step windows are contiguous,
non-overlapping and of equal length `T / K` (integer division of the
millisecond duration `T`), starting at the test's start; their union ends
`T % K` milliseconds *short* of the test's stop, so the last interval does
not absorb the rounding remainder (the claim's "last step's stop equals
the test's stop" fails whenever `K` does not divide `T`). -/
theorem c3_step_timestamps (flows : String → Option (List String))
    (mdirs : String → Option (List FileEntry)) (uid att : String) (cursor : ℤ)
    (c : Case) (r : Result) (cur2 : ℤ)
    (hemit : emitCase flows mdirs uid att cursor c = some (r, cur2))
    (hK : 1 ≤ r.steps.length) (ht : 0 ≤ c.time) :
    r.stop = r.start + caseDurMs c ∧
    (∀ i (hi : i < r.steps.length),
      (r.steps[i]).start = r.start + (i : ℤ) * (caseDurMs c / (r.steps.length : ℤ)) ∧
      (r.steps[i]).stop = r.start + ((i : ℤ) + 1) * (caseDurMs c / (r.steps.length : ℤ))) ∧
    r.start + (r.steps.length : ℤ) * (caseDurMs c / (r.steps.length : ℤ)) =
      r.stop - caseDurMs c % (r.steps.length : ℤ) := by
  obtain ⟨-, hstart, hstop, -, -, hlen, hsame⟩ := emitCase_fields hemit
  have hbl : (buildSteps (stepNamesOf flows c) c.status
      (failedStepIdx (stepNamesOf flows c) c.status c.details) c.details cursor
      (stepDurMs c (stepNamesOf flows c).length)).length = (stepNamesOf flows c).length :=
    buildSteps_length _ _ _ _ _ _
  have hn : 0 < (stepNamesOf flows c).length := by
    rw [← hlen]
    omega
  have hd : stepDurMs c (stepNamesOf flows c).length =
      caseDurMs c / ((stepNamesOf flows c).length : ℤ) := stepDurMs_eq c _ hn ht
  have hlenZ : ((stepNamesOf flows c).length : ℤ) = (r.steps.length : ℤ) := by
    exact_mod_cast hlen.symm
  refine ⟨?_, ?_, ?_⟩
  · rw [hstop, hstart]
  · intro i hi
    have h2 : i < (stepNamesOf flows c).length := hlen ▸ hi
    have hk2 : i < (buildSteps (stepNamesOf flows c) c.status
        (failedStepIdx (stepNamesOf flows c) c.status c.details) c.details cursor
        (stepDurMs c (stepNamesOf flows c).length)).length := by
      rw [hbl]
      exact h2
    obtain ⟨-, -, hsstart, hsstop, -⟩ := hsame i hi hk2
    have hrec := buildSteps_getElem (stepNamesOf flows c) c.status
      (failedStepIdx (stepNamesOf flows c) c.status c.details) c.details cursor
      (stepDurMs c (stepNamesOf flows c).length) i hk2 h2
    constructor
    · rw [hsstart, hrec, hstart, ← hlenZ, ← hd]
    · rw [hsstop, hrec, hstart, ← hlenZ, ← hd]
      ring
  · have hdm := Int.ediv_add_emod (caseDurMs c) ((r.steps.length : ℕ) : ℤ)
    rw [hstart, hstop]
    linarith

theorem c3_witness :
    1 ≤ pairC3.1.steps.length ∧ 0 ≤ case3.time ∧
    (pairC3.1.stop = pairC3.1.start + caseDurMs case3 ∧
     (∀ i (hi : i < pairC3.1.steps.length),
       (pairC3.1.steps[i]).start =
         pairC3.1.start + (i : ℤ) * (caseDurMs case3 / (pairC3.1.steps.length : ℤ)) ∧
       (pairC3.1.steps[i]).stop =
         pairC3.1.start + ((i : ℤ) + 1) * (caseDurMs case3 / (pairC3.1.steps.length : ℤ))) ∧
     pairC3.1.start + (pairC3.1.steps.length : ℤ) *
         (caseDurMs case3 / (pairC3.1.steps.length : ℤ)) =
       pairC3.1.stop - caseDurMs case3 % (pairC3.1.steps.length : ℤ)) :=
  ⟨by decide, by decide,
    c3_step_timestamps flows3 mdirs3 "u" "a" 0 case3 pairC3.1 pairC3.2 rfl
      (by decide) (by decide)⟩

/-- C6: on any successful run with a non-empty collected case list, the
emitted records occupy back-to-back timeline windows (each record's start
equals the previous record's stop, in collection order), and the sum of
the emitted `stop - start` values equals the sum of the declared per-test
durations up to the rounding of the seconds→milliseconds conversion
(strictly less than one millisecond per test case). -/
theorem c6_sequential_timeline (reports : String → Option (List (List XmlTestcase)))
    (flows : String → Option (List String)) (mdirs : String → Option (List FileEntry))
    (uids : Nat → String × String) (nowMs : ℤ) (rs : List Result)
    (hrun : junit_to_allure_results reports flows mdirs uids nowMs = some rs)
    (hne : collectCases reports ≠ []) :
    List.Chain' (fun a b => b.start = a.stop) rs ∧
    |(((rs.map fun r => r.stop - r.start).sum : ℤ) : ℚ) -
        1000 * ((collectCases reports).map Case.time).sum| <
      ((collectCases reports).length : ℚ) := by
  unfold junit_to_allure_results at hrun
  rw [if_neg (by simp [hne])] at hrun
  replace hrun : emitAll flows mdirs uids 0
      (nowMs - pyInt (((collectCases reports).map Case.time).sum * 1000))
      (collectCases reports) = some rs := hrun
  obtain ⟨-, hsum, hchain, -⟩ := emitAll_spec flows mdirs uids (collectCases reports) 0 _ rs hrun
  refine ⟨hchain, ?_⟩
  rw [hsum]
  cases hcs : collectCases reports with
  | nil => exact absurd hcs hne
  | cons c cs => exact sum_caseDurMs_near_lt c cs

theorem c6_witness :
    List.Chain' (fun a b => b.start = a.stop) rs6 ∧
    |(((rs6.map fun r => r.stop - r.start).sum : ℤ) : ℚ) -
        1000 * ((collectCases reports6).map Case.time).sum| <
      ((collectCases reports6).length : ℚ) :=
  c6_sequential_timeline reports6 flows6 mdirs6 uids6 0 rs6 rfl (by decide)

/-- C9 (counterexample): a present output directory holding one image file
(`mtime = 0`) yields *no* attachment: `latest_mtime` starts at `0` and the
comparison is strict, so an image dated exactly at the epoch is never
selected, contradicting the claim's "otherwise it selects the image file
with the latest modification timestamp". -/
theorem c9_counterexample :
    isImageEntry { suffix := ".png", mtime := 0, isFile := true } = true ∧
    copy_screenshot_to_allure (some [{ suffix := ".png", mtime := 0, isFile := true }]) "u" =
      none :=
  ⟨rfl, rfl⟩

/-- C9 (amended): the copier returns no attachment when the directory is
absent, when it holds no image file, or when no image file has a positive
modification time; otherwise it selects an image file with maximal
modification time (the first such in traversal order), and returns the
name `{identifier}-attachment{ext}` — with `ext` the *lowercased* original
extension — paired with the MIME type from the fixed table (default
`image/png`). -/
theorem c9_screenshot_copier (dir : Option (List FileEntry)) (u : String) :
    (dir = none → copy_screenshot_to_allure dir u = none) ∧
    (∀ files, dir = some files →
      ((∀ f ∈ files, isImageEntry f = true → f.mtime ≤ 0) →
        copy_screenshot_to_allure dir u = none) ∧
      ((∃ f ∈ files, isImageEntry f = true ∧ 0 < f.mtime) →
        ∃ g ∈ files, isImageEntry g = true ∧ 0 < g.mtime ∧
          (∀ f ∈ files, isImageEntry f = true → f.mtime ≤ g.mtime) ∧
          copy_screenshot_to_allure dir u =
            some (u ++ "-attachment" ++ pyLower g.suffix,
              (List.lookup (pyLower g.suffix) IMAGE_MIME).getD "image/png"))) := by
  constructor
  · intro h
    rw [h]
    rfl
  · intro files hdir
    subst hdir
    have hcopy : copy_screenshot_to_allure (some files) u =
        (match findLatestLoop files none 0 with
         | none => none
         | some src =>
           some (u ++ "-attachment" ++ pyLower src.suffix,
             (List.lookup (pyLower src.suffix) IMAGE_MIME).getD "image/png")) := rfl
    obtain ⟨hn, hs⟩ := findLatestLoop_spec files none 0 (fun _ => rfl) (by intro a ha; cases ha)
    constructor
    · intro hall
      cases hfl : findLatestLoop files none 0 with
      | none => rw [hcopy, hfl]
      | some g =>
        obtain ⟨himg, hpos, hmem, -, -⟩ := hs g hfl
        rcases hmem with hm | hm
        · exact absurd hpos (by simpa using (hall g hm himg).not_lt)
        · cases hm
    · intro hex
      cases hfl : findLatestLoop files none 0 with
      | none =>
        obtain ⟨-, hall⟩ := hn hfl
        obtain ⟨f, hf, himg, hpos⟩ := hex
        exact absurd hpos (by simpa using (hall f hf himg).not_lt)
      | some g =>
        obtain ⟨himg, hpos, hmem, -, hmax⟩ := hs g hfl
        rcases hmem with hm | hm
        · refine ⟨g, hm, himg, hpos, hmax, ?_⟩
          rw [hcopy, hfl]
        · cases hm

theorem c9_witness :
    ∃ g ∈ [({ suffix := ".PNG", mtime := 3, isFile := true } : FileEntry),
           { suffix := ".jpg", mtime := 7, isFile := true }],
      isImageEntry g = true ∧ 0 < g.mtime ∧
      (∀ f ∈ [({ suffix := ".PNG", mtime := 3, isFile := true } : FileEntry),
              { suffix := ".jpg", mtime := 7, isFile := true }],
        isImageEntry f = true → f.mtime ≤ g.mtime) ∧
      copy_screenshot_to_allure
          (some [({ suffix := ".PNG", mtime := 3, isFile := true } : FileEntry),
                 { suffix := ".jpg", mtime := 7, isFile := true }]) "w" =
        some ("w" ++ "-attachment" ++ pyLower g.suffix,
          (List.lookup (pyLower g.suffix) IMAGE_MIME).getD "image/png") :=
  ((c9_screenshot_copier
      (some [({ suffix := ".PNG", mtime := 3, isFile := true } : FileEntry),
             { suffix := ".jpg", mtime := 7, isFile := true }]) "w").2
    [({ suffix := ".PNG", mtime := 3, isFile := true } : FileEntry),
     { suffix := ".jpg", mtime := 7, isFile := true }] rfl).2
    ⟨{ suffix := ".jpg", mtime := 7, isFile := true }, by decide, by decide, by decide⟩

end AllureEnrich
